import Mathlib

/-
Verification of `repls/subprocess_repl.py` (SublimeREPL).

The Python source is shallowly embedded: dictionaries become association
lists with Python-dict semantics (insert replaces an existing key in place,
otherwise appends; lookup finds the unique binding); Python exceptions
become `Except PyErr` results; byte strings are modelled as `String`
(the encoder is an explicit parameter, since the byte level is irrelevant
to the properties at stake); the filesystem, the user's home directory and
the output of sourcing subprocesses are explicit parameters.
-/

set_option maxRecDepth 4096

/- Python exceptions that can escape the modelled code paths. -/
inductive PyErr : Type where
  | keyError : PyErr
  | indexError : PyErr
  | valueError : PyErr
  | encodeError : PyErr
  | osError : PyErr
  | unsupported (msgs : List String) : PyErr
deriving DecidableEq, Repr

/- Python dict with string keys, as an association list with unique keys. -/
abbrev PDict (α : Type) : Type := List (String × α)

abbrev Dict : Type := PDict String

/- `d[k]` / `d.get(k)`: lookup of a key. -/
def dget? {α : Type} : PDict α → String → Option α
  | [], _ => none
  | (k, v) :: rest, key => if k = key then some v else dget? rest key

/- `d[k] = v`: replace an existing binding in place, else append. -/
def dinsert {α : Type} : PDict α → String → α → PDict α
  | [], key, v => [(key, v)]
  | (k, w) :: rest, key, v =>
      if k = key then (key, v) :: rest else (k, w) :: dinsert rest key v

/- `d.update(other)`: insert every binding of `other` into `d`. -/
def dupdate {α : Type} (d other : PDict α) : PDict α :=
  other.foldl (fun acc kv => dinsert acc kv.1 kv.2) d

def lbrace : Char := Char.ofNat 123

def rbrace : Char := Char.ofNat 125

/- Scanner state for `pyFmt`: plain text, just saw `{`, just saw `}`, or
inside a replacement-field name with the characters read so far. -/
inductive FmtMode : Type where
  | text : FmtMode
  | afterL : FmtMode
  | afterR : FmtMode
  | name (acc : List Char) : FmtMode
deriving DecidableEq

/-
Python `str.format(**env)` restricted to plain `{NAME}` replacement fields
(the only shape the program's templates use): a single left-to-right pass;
doubled braces are escapes; a replacement field is looked up in `env` and its
value is spliced verbatim (never re-scanned); a missing key (Python
`KeyError`) or malformed braces yield `none`.
-/
def pyFmtGo (env : Dict) : FmtMode → List Char → Option (List Char)
  | .text, [] => some []
  | .afterL, [] => none
  | .afterR, [] => none
  | .name _, [] => none
  | .text, c :: rest =>
      if c = lbrace then pyFmtGo env .afterL rest
      else if c = rbrace then pyFmtGo env .afterR rest
      else (pyFmtGo env .text rest).map (c :: ·)
  | .afterL, c :: rest =>
      if c = lbrace then (pyFmtGo env .text rest).map (lbrace :: ·)
      else if c = rbrace then
        match dget? env "" with
        | none => none
        | some v => (pyFmtGo env .text rest).map (v.toList ++ ·)
      else pyFmtGo env (.name [c]) rest
  | .afterR, c :: rest =>
      if c = rbrace then (pyFmtGo env .text rest).map (rbrace :: ·)
      else none
  | .name acc, c :: rest =>
      if c = rbrace then
        match dget? env (String.mk acc) with
        | none => none
        | some v => (pyFmtGo env .text rest).map (v.toList ++ ·)
      else pyFmtGo env (.name (acc ++ [c])) rest

def pyFmt (env : Dict) (l : List Char) : Option (List Char) :=
  pyFmtGo env .text l

def pyFormat (env : Dict) (template : String) : Option String :=
  (pyFmt env template.toList).map String.mk

namespace SubprocessRepl

/-
`SubprocessRepl.interpolate_extend_env` (lines 214-220): builds a fresh dict
whose values are the templates of `extend_env` formatted against `env`.
A `KeyError` from `str.format` propagates (`none`).
-/
def interpolate_extend_env (env : Dict) : Dict → Option Dict :=
  go []
where
  go (new_env : Dict) : Dict → Option Dict
    | [] => some new_env
    | (key, val) :: rest =>
        match pyFormat env val with
        | none => none
        | some s => go (dinsert new_env key s) rest

/-
One `updated_env.update(interpolate_extend_env(updated_env, tpl))` phase of
`SubprocessRepl.env` (lines 197-201); the `if default_extend_env:` /
`if extend_env:` guards make an empty (falsy) template dict a no-op.
-/
def envPhase (cur tpl : Dict) : Option Dict :=
  if tpl.isEmpty then some cur
  else
    match interpolate_extend_env cur tpl with
    | none => none
    | some new_env => some (dupdate cur new_env)

/-
Lines 195-201 of `SubprocessRepl.env`: pick the base environment
(`env if env else self.getenv(settings)`, where an absent or empty dict is
falsy and falls back to the `getenv` result, passed here as `inherited`),
then apply the default extension templates, then the caller's.
-/
def envUpdated (inherited : Dict) (base? : Option Dict)
    (default_extend_env extend_env : Dict) : Option Dict :=
  let updated_env :=
    match base? with
    | some b => if b.isEmpty then inherited else b
    | none => inherited
  match envPhase updated_env default_extend_env with
  | none => none
  | some u1 => envPhase u1 extend_env

/-
Result of running the configured encoder (`self.encoder` from the `Repl`
base class) on one Python string: success with the encoded bytes (modelled
as a `String`), or a `UnicodeDecodeError`, or a `UnicodeEncodeError`.
-/
inductive EncResult : Type where
  | ok (bytes : String) : EncResult
  | decodeErr : EncResult
  | encodeErr : EncResult
deriving DecidableEq, Repr

/-
Lines 203-212 of `SubprocessRepl.env`: encode every key/value pair into
`bytes_env`.  The `except UnicodeDecodeError: continue` clause skips a pair
only for a `UnicodeDecodeError`; a `UnicodeEncodeError` is NOT caught and
escapes the whole build.
-/
def bytesEnvOf (enc : String → EncResult) : Dict → Except PyErr Dict :=
  go []
where
  go (bytes_env : Dict) : Dict → Except PyErr Dict
    | [] => .ok bytes_env
    | (k, v) :: rest =>
        match enc k with
        | .decodeErr => go bytes_env rest
        | .encodeErr => .error .encodeError
        | .ok enc_k =>
            match enc v with
            | .decodeErr => go bytes_env rest
            | .encodeErr => .error .encodeError
            | .ok enc_v => go (dinsert bytes_env enc_k enc_v) rest

/-
`SubprocessRepl.env` (lines 195-212), interpolation followed by encoding.
-/
def env (enc : String → EncResult) (inherited : Dict) (base? : Option Dict)
    (default_extend_env extend_env : Dict) : Except PyErr Dict :=
  match envUpdated inherited base? default_extend_env extend_env with
  | none => .error .keyError
  | some updated => bytesEnvOf enc updated

end SubprocessRepl

/--
C1: environment building applies the default extension templates first and
the caller-supplied ones second, each by a single-pass `{key}` interpolation
against the environment accumulated so far (no recursive re-expansion):
(1) the round-trip scenario: extension `GREETING = "hi {NAME}"` over base
`NAME = "sam"` yields `NAME = "sam"` and `GREETING = "hi sam"`;
(2) the caller phase sees values produced by the default phase;
(3) the caller phase overrides a key set by the default phase;
(4) templates within one phase see the pre-phase environment, not each
other's results;
(5) a spliced value containing `{X}` is not re-expanded.
-/
theorem c1_env_interpolation :
    SubprocessRepl.env .ok [] (some [("NAME", "sam")]) []
        [("GREETING", "hi {NAME}")]
      = .ok [("NAME", "sam"), ("GREETING", "hi sam")]
    ∧ SubprocessRepl.env .ok [] (some [("A", "1")]) [("B", "{A}")]
        [("C", "{B}")]
      = .ok [("A", "1"), ("B", "1"), ("C", "1")]
    ∧ SubprocessRepl.env .ok [] (some [("Z", "z")]) [("K", "d")] [("K", "e")]
      = .ok [("Z", "z"), ("K", "e")]
    ∧ SubprocessRepl.env .ok [] (some [("C", "orig")]) []
        [("C", "x"), ("D", "{C}")]
      = .ok [("C", "x"), ("D", "orig")]
    ∧ SubprocessRepl.env .ok [] (some [("N", "{X}"), ("X", "boom")]) []
        [("G", "hi {N}")]
      = .ok [("N", "{X}"), ("X", "boom"), ("G", "hi {X}")] := by
  refine ⟨rfl, rfl, rfl, rfl, rfl⟩

/--
C6 (code bug): `SubprocessRepl.env` (lines 203-212) is meant to drop any
pair whose key or value fails to encode and keep the rest, but its
`except UnicodeDecodeError` clause only catches `UnicodeDecodeError`;
an encoder failing with `UnicodeEncodeError` (the exception a Python 3
codec encoder actually raises, e.g. on a lone surrogate) escapes and aborts
the whole build.  First conjunct: a `UnicodeDecodeError` pair is dropped and
all other pairs are kept.  Second conjunct: a `UnicodeEncodeError` pair
aborts the whole build instead of being dropped.
-/
theorem c6_encode_error_aborts_build :
    SubprocessRepl.env
        (fun s => if s = "UGLY" then .decodeErr else .ok s) []
        (some [("A", "1"), ("UGLY", "x"), ("B", "2")]) [] []
      = .ok [("A", "1"), ("B", "2")]
    ∧ SubprocessRepl.env
        (fun s => if s = "BAD" then .encodeErr else .ok s) []
        (some [("A", "1"), ("BAD", "x"), ("B", "2")]) [] []
      = .error .encodeError := by
  refine ⟨rfl, rfl⟩

/- Result of Python `line.split('=', 1)`: one piece (no `=` in the line) or
two pieces (split at the first `=`). -/
inductive SplitRes : Type where
  | one (s : String) : SplitRes
  | two (k v : String) : SplitRes
deriving DecidableEq, Repr

def splitEq1Go (acc : List Char) : List Char → SplitRes
  | [] => .one (String.mk acc.reverse)
  | c :: rest =>
      if c = '=' then .two (String.mk acc.reverse) (String.mk rest)
      else splitEq1Go (c :: acc) rest

/- `line.split('=', 1)` as used at lines 170 and 323. -/
def splitEq1 (line : String) : SplitRes :=
  splitEq1Go [] line.toList

/- `previous_pair[1] += "\n" + kw_pair[0]` (line 177): extend the value of
the last accumulated pair. -/
def appendToLast : List (String × String) → String → List (String × String)
  | [], _ => []
  | [kv], s => [(kv.1, kv.2 ++ "\n" ++ s)]
  | kv :: kv2 :: rest, s => kv :: appendToLast (kv2 :: rest) s

/-
Lines 170-181 of `SubprocessRepl.getenv`: accumulate `KEY=VALUE` pairs; a
line without `=` is appended (with a newline) to the previous pair's value;
if there is no previous pair, `santized_kw_pairs[-1]` raises `IndexError`.
-/
def parseGetenvPairs : List String → List (String × String) →
    Except PyErr (List (String × String))
  | [], acc => .ok acc
  | line :: rest, acc =>
      match splitEq1 line with
      | .two k v => parseGetenvPairs rest (acc ++ [(k, v)])
      | .one s =>
          match acc with
          | [] => .error .indexError
          | _ :: _ => parseGetenvPairs rest (appendToLast acc s)

/- `dict(santized_kw_pairs)` (line 182). -/
def dictOfPairs (pairs : List (String × String)) : Dict :=
  pairs.foldl (fun d kv => dinsert d kv.1 kv.2) []

/- The environment-dump parsing of `SubprocessRepl.getenv` (lines 169-183). -/
def getenvParse (lines : List String) : Except PyErr Dict :=
  (parseGetenvPairs lines []).map dictOfPairs

/-
Line 323, `SubprocessReplVenv.shell_source`:
`dict((line.split('=', 1) for line in ...))`.  `dict` raises `ValueError`
on a sequence element of length 1, i.e. on any line without `=`; there is
no folding of such lines here.
-/
def shellSourceParse : List String → Except PyErr Dict :=
  go []
where
  go (acc : Dict) : List String → Except PyErr Dict
    | [] => .ok acc
    | line :: rest =>
        match splitEq1 line with
        | .two k v => go (dinsert acc k v) rest
        | .one _ => .error .valueError

/--
C6 evidence helper is above; C7 counterexample: the claim says both dump
parsers fold a no-`=` line into the previous value, but the per-tag
activation sourcing parser (`shell_source`, line 323) raises `ValueError`
on the three-line dump `FOO=bar / baz / QUX=1` instead of folding.
-/
theorem c7_counterexample_shell_source :
    shellSourceParse ["FOO=bar", "baz", "QUX=1"] = .error .valueError
    ∧ shellSourceParse ["FOO=bar", "baz", "QUX=1"]
        ≠ .ok [("FOO", "bar\nbaz"), ("QUX", "1")] := by
  exact ⟨rfl, fun h => Except.noConfusion h⟩

/- Appending to the last pair of a nonempty pair list, in closed form. -/
theorem appendToLast_concat : ∀ (ps : List (String × String)) (k0 v0 s : String),
    appendToLast (ps ++ [(k0, v0)]) s = ps ++ [(k0, v0 ++ "\n" ++ s)]
  | [], _, _, _ => rfl
  | [_], _, _, _ => rfl
  | p :: q :: ps, k0, v0, s => by
      have ih := appendToLast_concat (q :: ps) k0 v0 s
      simp only [List.cons_append] at ih ⊢
      simp only [appendToLast, ih]

/- The getenv dump parser processes a concatenation of line lists in
sequence, propagating the accumulated pairs (or the first error). -/
theorem parseGetenvPairs_append (xs : List String) :
    ∀ (ys : List String) (acc : List (String × String)),
    parseGetenvPairs (xs ++ ys) acc =
      (match parseGetenvPairs xs acc with
       | .ok acc2 => parseGetenvPairs ys acc2
       | .error e => .error e) := by
  induction xs with
  | nil => intro ys acc; rfl
  | cons line xs ih =>
      intro ys acc
      rw [List.cons_append]
      show parseGetenvPairs (line :: (xs ++ ys)) acc = _
      cases h : splitEq1 line with
      | two k v => simp only [parseGetenvPairs, h, ih]
      | one s =>
          cases acc with
          | nil => simp only [parseGetenvPairs, h]
          | cons a as => simp only [parseGetenvPairs, h, ih]

/--
C7 (amended): only the login-shell getenv query parser
(`SubprocessRepl.getenv`, lines 168-183) folds a dump line containing no
`=` into the previous key's value with a newline; in particular the
three-line dump `FOO=bar / baz / QUX=1` parses there to
`FOO = "bar\nbaz", QUX = "1"`.  The per-tag activation sourcing parser
(`shell_source`, line 323) instead raises `ValueError` on such a line.
-/
theorem c7_getenv_folds_shell_source_raises (pre : List String) (l s : String)
    (ps : List (String × String)) (k0 v0 : String)
    (h1 : splitEq1 l = .one s)
    (h2 : parseGetenvPairs pre [] = .ok (ps ++ [(k0, v0)])) :
    parseGetenvPairs (pre ++ [l]) [] = .ok (ps ++ [(k0, v0 ++ "\n" ++ s)])
    ∧ getenvParse ["FOO=bar", "baz", "QUX=1"]
        = .ok [("FOO", "bar\nbaz"), ("QUX", "1")]
    ∧ shellSourceParse ["FOO=bar", "baz", "QUX=1"] = .error .valueError := by
  refine ⟨?_, rfl, rfl⟩
  rw [parseGetenvPairs_append, h2]
  show parseGetenvPairs [l] (ps ++ [(k0, v0)]) = _
  cases ps with
  | nil =>
      simp only [List.nil_append] at h2 ⊢
      simp only [parseGetenvPairs, h1]
      rw [show ([(k0, v0)] : List (String × String)) = [] ++ [(k0, v0)] from rfl,
        appendToLast_concat]
      rfl
  | cons p ps' =>
      simp only [List.cons_append, parseGetenvPairs, h1]
      rw [show (p :: (ps' ++ [(k0, v0)])) = (p :: ps') ++ [(k0, v0)] from rfl,
        appendToLast_concat]
      rfl

/--
Witness for C7: the general folding fact applied to the concrete dump
`FOO=bar` followed by the `=`-free line `baz`.
-/
theorem c7_getenv_folds_witness :
    parseGetenvPairs (["FOO=bar"] ++ ["baz"]) []
      = .ok ([] ++ [("FOO", "bar" ++ "\n" ++ "baz")]) :=
  (c7_getenv_folds_shell_source_raises ["FOO=bar"] "baz" "baz" [] "FOO" "bar"
    rfl rfl).1

/-
The non-POSIX branch of `SubprocessRepl.read_bytes` (lines 259-269): the
pending stream bytes are a list of byte values, and reading returns the
first byte delivered (`none` standing for the empty read `b""` at end of
stream) together with the bytes left.  A carriage-return byte (13) is
skipped and the next byte is read instead.
-/
def read_bytes_nonposix : List Nat → Option Nat × List Nat
  | [] => (none, [])
  | b :: rest => if b = 13 then read_bytes_nonposix rest else (some b, rest)

/--
C9: on the non-POSIX read path, `read_bytes` never returns a
carriage-return byte — every 13 read is skipped and the next byte read is
returned instead (the returned byte is the first non-13 byte of the
stream) — and at end of stream it returns the empty byte string (`none`)
without raising (the function is total).
-/
theorem c9_read_bytes_skips_cr (s : List Nat) :
    read_bytes_nonposix [] = (none, [])
    ∧ (read_bytes_nonposix s).1 ≠ some 13
    ∧ (read_bytes_nonposix s).1 = (s.dropWhile (fun b => b == 13)).head? := by
  refine ⟨rfl, ?_, ?_⟩ <;> induction s with
  | nil => simp [read_bytes_nonposix]
  | cons b rest ih =>
      by_cases hb : b = 13 <;>
        simp [read_bytes_nonposix, hb, List.dropWhile_cons, ih]

/- `os.path.dirname(executable)` is truthy iff the name contains a
directory separator (drive-relative spellings aside). -/
def hasDirComponent (s : String) : Bool :=
  s.toList.any (fun c => c == '/' || c == '\\')

/- Python `s.split(sep)` for a one-character separator, on characters. -/
def splitOnChar (sep : Char) : List Char → List (List Char)
  | [] => [[]]
  | c :: rest =>
      match splitOnChar sep rest with
      | [] => [[c]]
      | g :: gs => if c = sep then [] :: g :: gs else (c :: g) :: gs

/- Python `s.split(sep)` for a one-character separator. -/
def splitOnSep (s : String) (sep : Char) : List String :=
  (splitOnChar sep s.toList).map String.mk

/- Python `sep.join(parts)`. -/
def joinWith (sep : String) : List String → String
  | [] => ""
  | [x] => x
  | x :: y :: rest => x ++ sep ++ joinWith sep (y :: rest)

/- Index of the last `.` in a character list, if any. -/
def lastDotPos (cs : List Char) : Option Nat :=
  ((cs.enum.filter (fun p => p.2 == '.')).map (fun p => p.1)).getLast?

/-
`os.path.splitext`: split at the last dot, unless every character before it
is itself a dot (so a leading-dots name such as `.bashrc` keeps its dot).
Only applied to names without a directory separator, as in the source.
-/
def splitext (s : String) : String × String :=
  let cs := s.toList
  match lastDotPos cs with
  | none => (s, "")
  | some i =>
      if (cs.take i).any (fun c => c != '.') then
        (String.mk (cs.take i), String.mk (cs.drop i))
      else (s, "")

/- `os.path.join(directory, filename)`, rendered with `/` as separator. -/
def joinPath (d f : String) : String :=
  match d.toList.getLast? with
  | none => f
  | some c => if c == '/' || c == '\\' then d ++ f else d ++ "/" ++ f

/- Inner loop of `win_find_executable` (lines 51-54): try each extension in
the given directory and return the first existing file. -/
def searchExts (fsExists : String → Bool) (dir base : String) :
    List String → Option String
  | [] => none
  | ext :: exts =>
      let filepath := joinPath dir (base ++ ext)
      if fsExists filepath then some filepath
      else searchExts fsExists dir base exts

/- Outer loop of `win_find_executable` (lines 50-55): try each `PATH`
directory in order. -/
def searchDirs (fsExists : String → Bool) (base : String)
    (extensions : List String) : List String → Option String
  | [] => none
  | d :: ds =>
      match searchExts fsExists d base extensions with
      | some f => some f
      | none => searchDirs fsExists base extensions ds

/-
`win_find_executable` (lines 38-55): return the name unchanged when it has
a directory component; otherwise search `PATH` entries (split on the
platform path separator `;`) against the `PATHEXT`-derived extensions
(default `.EXE` when `PATHEXT` is unset or falsy; the name's own extension,
when present, is the only one tried), returning the first existing file.
The filesystem is the `fsExists` parameter.
-/
def win_find_executable (fsExists : String → Bool) (executable : String)
    (env : Dict) : Option String :=
  if hasDirComponent executable then some executable
  else
    let path := (dget? env "PATH").getD ""
    let pathext :=
      match dget? env "PATHEXT" with
      | some s => if s = "" then ".EXE" else s
      | none => ".EXE"
    let dirs := splitOnSep path ';'
    let be := splitext executable
    let extensions := if be.2 = "" then splitOnSep pathext ';' else [be.2]
    searchDirs fsExists be.1 extensions dirs

/-
The spec's formulation of the same lookup: the candidate files are the
`PATH` directories in order, each combined with every extension in order,
and the result is the first existing candidate.
-/
def winFindExecutableSpec (fsExists : String → Bool) (executable : String)
    (env : Dict) : Option String :=
  if hasDirComponent executable then some executable
  else
    let path := (dget? env "PATH").getD ""
    let pathext :=
      match dget? env "PATHEXT" with
      | some s => if s = "" then ".EXE" else s
      | none => ".EXE"
    let dirs := splitOnSep path ';'
    let be := splitext executable
    let extensions := if be.2 = "" then splitOnSep pathext ';' else [be.2]
    ((dirs.map (fun d => extensions.map (fun e => joinPath d (be.1 ++ e)))).flatten).find?
      fsExists

/- The extension loop is a first-match search over the candidate names of
one directory. -/
theorem searchExts_eq_find? (fsExists : String → Bool) (dir base : String) :
    ∀ exts : List String,
    searchExts fsExists dir base exts
      = (exts.map (fun e => joinPath dir (base ++ e))).find? fsExists := by
  intro exts
  induction exts with
  | nil => rfl
  | cons e es ih =>
      by_cases h : fsExists (joinPath dir (base ++ e)) <;>
        simp [searchExts, List.find?_cons, h, ih]

/- The directory loop is a first-match search over all candidate names. -/
theorem searchDirs_eq_find? (fsExists : String → Bool) (base : String)
    (extensions : List String) :
    ∀ dirs : List String,
    searchDirs fsExists base extensions dirs
      = ((dirs.map (fun d => extensions.map
          (fun e => joinPath d (base ++ e)))).flatten).find? fsExists := by
  intro dirs
  induction dirs with
  | nil => rfl
  | cons d ds ih =>
      rw [List.map_cons, List.flatten_cons, List.find?_append]
      rw [searchDirs, searchExts_eq_find?, ih]
      cases (extensions.map (fun e => joinPath d (base ++ e))).find? fsExists
        <;> rfl

/--
C8: executable lookup on the platform requiring manual search
(`win_find_executable`): a name with a directory component is returned
unchanged with no search; otherwise the search iterates `PATH` directories
in order and, within each directory, the `PATHEXT`-derived extensions
(defaulting to `.EXE` when `PATHEXT` is unset; the name's own extension,
when present, is the only one tried), returning the first existing
candidate file and `none` when no candidate exists (this is the equality
with `winFindExecutableSpec`).  In particular, with `PATH` holding
`/usr/bin` and `PATHEXT` holding `.EXE`, resolving `python` when
`/usr/bin/python.EXE` exists returns `/usr/bin/python.EXE`.
-/
theorem c8_win_find_executable (fsExists : String → Bool) (executable : String)
    (env : Dict) :
    win_find_executable fsExists executable env
      = winFindExecutableSpec fsExists executable env
    ∧ win_find_executable (fun s => s == "/usr/bin/python.EXE") "python"
        [("PATH", "/usr/bin"), ("PATHEXT", ".EXE")]
      = some "/usr/bin/python.EXE"
    ∧ win_find_executable (fun _ => false) "tools/python" []
      = some "tools/python"
    ∧ win_find_executable (fun _ => false) "python"
        [("PATH", "/usr/bin"), ("PATHEXT", ".EXE")]
      = none := by
  refine ⟨?_, rfl, rfl, rfl⟩
  unfold win_find_executable winFindExecutableSpec
  by_cases h : hasDirComponent executable <;> simp [h, searchDirs_eq_find?]

/- Result of `SubprocessRepl.__init__`: the outcome (the final child
environment, or the Python exception that escaped) together with the list
of commands spawned as child processes. -/
structure InitTrace : Type where
  res : Except PyErr Dict
  spawned : List (List String)

/-
`SubprocessRepl.__init__` (lines 61-116) on the POSIX path (`self.cmd`
returns `cmd` unchanged, lines 141-145): fail fast on the `[unsupported]`
sentinel (lines 66-67), build the environment (line 74), inject the two
autocomplete variables (lines 75-76; their values are the `acPort` / `acIp`
parameters), then spawn the primary process and, when `filt_warns` is set,
the `cat` filter process chained to it (lines 88-116).
-/
def subprocess_init (enc : String → SubprocessRepl.EncResult)
    (inherited default_extend_env : Dict) (acPort acIp : String)
    (cmd : List String) (env? : Option Dict) (extend_env : Dict)
    (filt_warns : Bool) : InitTrace :=
  match cmd with
  | [] => ⟨.error .indexError, []⟩
  | c0 :: rest =>
      if c0 = "[unsupported]" then ⟨.error (.unsupported rest), []⟩
      else
        match SubprocessRepl.env enc inherited env? default_extend_env
            extend_env with
        | .error e => ⟨.error e, []⟩
        | .ok bytes_env =>
            let env2 :=
              dinsert (dinsert bytes_env "SUBLIMEREPL_AC_PORT" acPort)
                "SUBLIMEREPL_AC_IP" acIp
            ⟨.ok env2,
              [c0 :: rest] ++ (if filt_warns then [["cat"]] else [])⟩

/--
C5: for every command list whose first element is the sentinel
`[unsupported]`, constructing the REPL raises an `Unsupported` error
carrying the remaining elements `cmd[1:]` as its reason strings, the error
propagates to the caller unmodified, and no child process is spawned
(`spawned = []`), whatever the other construction arguments are.
-/
theorem c5_unsupported_fails_fast (enc : String → SubprocessRepl.EncResult)
    (inherited default_extend_env : Dict) (acPort acIp : String)
    (rest : List String) (env? : Option Dict) (extend_env : Dict)
    (filt_warns : Bool) :
    subprocess_init enc inherited default_extend_env acPort acIp
        ("[unsupported]" :: rest) env? extend_env filt_warns
      = ⟨.error (.unsupported rest), []⟩ :=
  rfl

/- Events observable on the process chain while killing. -/
inductive KillEvent : Type where
  | writeOk (payload : String) : KillEvent
  | writeFailed (payload : String) : KillEvent
  | killPrimary : KillEvent
  | killFilter : KillEvent
deriving DecidableEq, Repr

/- State of a running `SubprocessRepl` as `kill` sees it: the one-way
`_killed` flag, whether the primary's stdin pipe still accepts writes,
whether the filter stage is enabled, the configured soft-quit payload, and
the trace of events so far. -/
structure ReplProcState : Type where
  killed : Bool
  stdinOk : Bool
  filt_warns : Bool
  soft_quit : String
  events : List KillEvent

/-
`SubprocessRepl.write_bytes` (lines 271-274): write then flush; an `OSError`
(broken pipe of an exiting process) escapes.
-/
def write_bytes (s : ReplProcState) (payload : String) :
    Except PyErr ReplProcState :=
  if s.stdinOk then .ok { s with events := s.events ++ [.writeOk payload] }
  else .error .osError

/--
Modelled from the spec: `Repl.write` lives in `repls/repl.py`, which is not
among the sources; per the spec the soft-quit write during kill is
"best-effort, ignore write errors since the process may already be
exiting", so a failed write is swallowed (recorded here as a
`writeFailed` event).
-/
def Repl.write (s : ReplProcState) (payload : String) : ReplProcState :=
  match write_bytes s payload with
  | .ok s2 => s2
  | .error _ => { s with events := s.events ++ [.writeFailed payload] }

/--
Modelled from the spec: `killableprocess.Popen.kill` lives in
`repls/killableprocess.py`, which is not among the sources; per the spec it
force-kills the process and raises no error even when the process already
exited, so it is total and only records the kill.
-/
def Popen.kill (s : ReplProcState) (ev : KillEvent) : ReplProcState :=
  { s with events := s.events ++ [ev] }

/-
`SubprocessRepl.kill` (lines 276-281): set the `_killed` flag, write the
soft-quit payload, force-kill the primary, and when the filter stage is
enabled also the filter.  Being a total function, it raises no error in any
state.
-/
def SubprocessRepl.kill (s : ReplProcState) : ReplProcState :=
  let s1 : ReplProcState := { s with killed := true }
  let s2 := Repl.write s1 s1.soft_quit
  let s3 := Popen.kill s2 .killPrimary
  if s3.filt_warns then Popen.kill s3 .killFilter else s3

/--
C4: `kill()` sets the killed flag, writes the configured soft-quit payload
to the primary's stdin ignoring write errors (a `writeFailed` event when
the pipe is gone, a `writeOk` event otherwise), then force-kills the
primary and, when the filter stage is enabled, the filter.  It is a total
function — no error is raised in any state, including one whose process
already exited (`stdinOk = false`) — and after a second `kill()` the killed
flag is still true.
-/
theorem c4_kill_sets_flag_and_is_idempotent (s : ReplProcState) :
    (SubprocessRepl.kill s).killed = true
    ∧ (SubprocessRepl.kill s).events
        = s.events
          ++ [if s.stdinOk then KillEvent.writeOk s.soft_quit
              else KillEvent.writeFailed s.soft_quit]
          ++ [KillEvent.killPrimary]
          ++ (if s.filt_warns then [KillEvent.killFilter] else [])
    ∧ (SubprocessRepl.kill (SubprocessRepl.kill s)).killed = true := by
  by_cases h1 : s.stdinOk <;> by_cases h2 : s.filt_warns <;>
    simp [SubprocessRepl.kill, Repl.write, write_bytes, Popen.kill, h1, h2]

/- Paths are modelled as component lists; an absolute path starts with the
empty component, so rendering joins with `/`. -/
def renderPath (p : List String) : String :=
  joinWith "/" p

/- `os.path.expanduser`: replace a leading `~` component by the home
directory's components. -/
def expanduser (home : List String) : List String → List String
  | "~" :: rest => home ++ rest
  | p => p

/- Filesystem entry match for the glob pattern `p/*/bin` (conda >= 4,
line 344): exactly one component for `*`, ending in the binary directory. -/
def matchBin (q : List String) (bin_dir : String) (e : List String) : Bool :=
  decide (e.length = q.length + 2) && decide (e.take q.length = q)
    && decide (e.drop (q.length + 1) = [bin_dir])

/- Filesystem entry match for the glob pattern `p/*/bin/activate`
(conda == 3, line 341); the caller takes `os.path.dirname` of each match. -/
def matchBinActivate (q : List String) (bin_dir : String)
    (e : List String) : Bool :=
  decide (e.length = q.length + 3) && decide (e.take q.length = q)
    && decide (e.drop (q.length + 1) = [bin_dir, "activate"])

/- Lexicographic comparison of character lists by code point. -/
def charsLe : List Char → List Char → Bool
  | [], _ => true
  | _ :: _, [] => false
  | a :: as, b :: bs =>
      if a.toNat < b.toNat then true
      else if b.toNat < a.toNat then false
      else charsLe as bs

/- Lexicographic order on component paths, standing in for Python's string
sort of the rendered paths. -/
def pathLe : List String → List String → Bool
  | [], _ => true
  | _ :: _, [] => false
  | x :: xs, y :: ys =>
      if x = y then pathLe xs ys else charsLe x.toList y.toList

def insertSorted (x : List String) :
    List (List String) → List (List String)
  | [] => [x]
  | y :: ys => if pathLe x y then x :: y :: ys else y :: insertSorted x ys

/- `sorted(...)` (line 347) as insertion sort. -/
def sortPaths : List (List String) → List (List String)
  | [] => []
  | x :: xs => insertSorted x (sortPaths xs)

def dedupGo (seen : List (List String)) :
    List (List String) → List (List String)
  | [] => []
  | x :: xs =>
      if seen.contains x then dedupGo seen xs
      else x :: dedupGo (x :: seen) xs

/- `found_dirs` is a Python `set` (line 336): keep one copy of each path. -/
def dedupPaths (l : List (List String)) : List (List String) :=
  dedupGo [] l

/-
`SubprocessReplVenv.scan_for_virtualenvs` (lines 325-347) on POSIX
(`bin_dir = 'bin'`): for each root, expand `~`, glob for `p/*/bin`
(conda >= 4) or for `p/*/bin/activate` and take its directory (conda == 3),
collect the results as a set and return them sorted.  The filesystem is the
`fs` parameter (the list of existing paths).
-/
def scan_for_virtualenvs (fs : List (List String)) (home : List String)
    (venv_paths : List (List String)) (conda_min : Nat) :
    List (List String) :=
  let bin_dir := "bin"
  let found := venv_paths.foldl (fun acc vp =>
    let p := expanduser home vp
    if conda_min = 3 then
      acc ++ ((fs.filter (matchBinActivate p bin_dir)).map
        (fun e => e.dropLast))
    else
      acc ++ (fs.filter (matchBin p bin_dir))) []
  sortPaths (dedupPaths found)

/- `os.path.basename(os.path.dirname(path))`: the second-to-last
component. -/
def tagOf (e : List String) : String :=
  (e.dropLast.getLast?).getD ""

/- Line 360: `venvs_bin_dir = {basename(dirname(_)): _ for _ in scan}`. -/
def venvs_bin_dir_of (fs : List (List String)) (home : List String)
    (venv_paths : List (List String)) (conda_minor : Nat) :
    PDict (List String) :=
  (scan_for_virtualenvs fs home venv_paths conda_minor).foldl
    (fun acc e => dinsert acc (tagOf e) e) []

/- Line 361: `wrappers_dir = {k: join(v, 'wrappers/conda') for k, v in
venvs_bin_dir}`. -/
def wrappers_dir_of (venvs_bin_dir : PDict (List String)) :
    PDict (List String) :=
  venvs_bin_dir.map (fun kv => (kv.1, kv.2 ++ ["wrappers", "conda"]))

/- Lines 369-373: insert the `PY_VERSION` and `PYTHONIOENCODING` defaults
into the caller's `extend_env` when absent. -/
def withDefaults (extend_env : Dict) : Dict :=
  let e1 :=
    if (dget? extend_env "PY_VERSION").isNone then
      dinsert extend_env "PY_VERSION" "py3"
    else extend_env
  if (dget? e1 "PYTHONIOENCODING").isNone then
    dinsert e1 "PYTHONIOENCODING" "utf-8"
  else e1

/- Line 375: the tag resolved after the defaults are in place. -/
def pyVerOf (extend_env : Dict) : String :=
  (dget? (withDefaults extend_env) "PY_VERSION").getD "py3"

/- Result of the virtualenv-resolution part of `SubprocessReplVenv.__init__`
(lines 360-401): the resulting child environment (or escaped exception),
the mutated `extend_env`, the process-wide `VENVS_ENVIRON` cache after the
call, and the number of sourcing subprocesses spawned. -/
structure RState : Type where
  res : Except PyErr Dict
  extend_env : Dict
  cache : PDict Dict
  spawns : Nat

/-
The sourcing loop (lines 390-397): for every discovered tag, compute the
activation script directory (`venvs_bin_dir[version]` for conda == 3, else
`join(dirname(venv_paths[0]), 'bin')`, which raises `IndexError` on an
empty `venv_paths`), spawn one `bash --login` sourcing subprocess
(`shell_source`, modelled by `sourceFn`), and store its parsed environment
in the cache.  Returns the cache so far, the error if one escaped, and the
number of sourcing subprocesses spawned.
-/
def sourceLoop (conda_minor : Nat) (venv_paths : List (List String))
    (sourceFn : List String → String → Dict) :
    List (String × List String) → PDict Dict →
    PDict Dict × Option PyErr × Nat
  | [], cache => (cache, none, 0)
  | (version, bin_dir) :: rest, cache =>
      let adirE : Except PyErr (List String) :=
        if conda_minor = 3 then .ok bin_dir
        else
          match venv_paths with
          | [] => .error .indexError
          | p0 :: _ => .ok (p0.dropLast ++ ["bin"])
      match adirE with
      | .error e => (cache, some e, 0)
      | .ok activate_dir =>
          let cache2 :=
            dinsert cache version
              (sourceFn (activate_dir ++ ["activate"]) version)
          let r := sourceLoop conda_minor venv_paths sourceFn rest cache2
          (r.1, r.2.1, r.2.2 + 1)

/-
Lines 398-400, after the sourcing loop ran (or was skipped): look the tag
up in the cache (`VENVS_ENVIRON[py_ver]`, a `KeyError` when absent),
interpolate the cached delta against the base environment, and merge it in.
`r` carries the cache, the error escaped from the loop if any, and the
spawn count.
-/
def venvFinish (ext1 conda_env : Dict) (py_ver : String)
    (r : PDict Dict × Option PyErr × Nat) : RState :=
  match r.2.1 with
  | some e => ⟨.error e, ext1, r.1, r.2.2⟩
  | none =>
      match dget? r.1 py_ver with
      | none => ⟨.error .keyError, ext1, r.1, r.2.2⟩
      | some delta =>
          match SubprocessRepl.interpolate_extend_env conda_env delta with
          | none => ⟨.error .keyError, ext1, r.1, r.2.2⟩
          | some interp => ⟨.ok (dupdate conda_env interp), ext1, r.1, r.2.2⟩

/-
The virtualenv-resolution part of `SubprocessReplVenv.__init__`
(lines 360-401): discover the venvs, derive the wrapper dirs, insert the
`extend_env` defaults, then either prepend the wrapper and bin dirs to
`PATH` (wrapped strategy, lines 378-383), or pass root/base through
untouched (line 386), or source-and-cache (lines 387-400).  `conda_env` is
the base environment already chosen at line 366; `cache` is the global
`VENVS_ENVIRON` on entry.
-/
def venvResolve (fs : List (List String)) (home : List String)
    (venv_paths : List (List String)) (use_wrapped force_source : Bool)
    (conda_minor : Nat) (sourceFn : List String → String → Dict)
    (cache : PDict Dict) (conda_env extend_env : Dict) : RState :=
  let venvs_bin_dir := venvs_bin_dir_of fs home venv_paths conda_minor
  let wrappers_dir := wrappers_dir_of venvs_bin_dir
  let ext1 := withDefaults extend_env
  let py_ver := (dget? ext1 "PY_VERSION").getD "py3"
  if use_wrapped && (dget? wrappers_dir py_ver).isSome then
    match dget? conda_env "PATH", dget? wrappers_dir py_ver,
        dget? venvs_bin_dir py_ver with
    | some p, some w, some b =>
        let path := renderPath w :: renderPath b :: splitOnSep p ':'
        ⟨.ok (dinsert conda_env "PATH" (joinWith ":" path)), ext1, cache, 0⟩
    | _, _, _ => ⟨.error .keyError, ext1, cache, 0⟩
  else if py_ver == "root" || py_ver == "base" then
    ⟨.ok conda_env, ext1, cache, 0⟩
  else
    venvFinish ext1 conda_env py_ver
      (if (dget? cache py_ver).isNone || force_source then
        sourceLoop conda_minor venv_paths sourceFn venvs_bin_dir cache
      else (cache, none, 0))

/- A wrapper-directory lookup is the bin-directory lookup with the wrapper
suffix appended. -/
theorem dget?_wrappers (d : PDict (List String)) (k : String) :
    dget? (wrappers_dir_of d) k
      = (dget? d k).map (fun b => b ++ ["wrappers", "conda"]) := by
  unfold wrappers_dir_of
  induction d with
  | nil => rfl
  | cons kv rest ih =>
      obtain ⟨a, b⟩ := kv
      by_cases h : a = k <;> simp [dget?, h, ih]

/--
C3: for every discovered virtual-environment tag `t` (a key of
`venvs_bin_dir`, which is exactly when a wrapper directory is mapped for
`t`), when `use_wrapped` is set, resolution prepends the wrapper directory
first and the venv binary directory second to the front of `PATH` and
returns immediately: zero sourcing subprocesses are spawned and the cache
is untouched.
-/
theorem c3_wrapped_prepends_path_no_subprocess (fs : List (List String))
    (home : List String) (venv_paths : List (List String))
    (force_source : Bool) (conda_minor : Nat)
    (sourceFn : List String → String → Dict) (cache : PDict Dict)
    (conda_env extend_env : Dict) (t : String) (b : List String) (p : String)
    (hb : dget? (venvs_bin_dir_of fs home venv_paths conda_minor) t = some b)
    (hver : pyVerOf extend_env = t)
    (hpath : dget? conda_env "PATH" = some p) :
    venvResolve fs home venv_paths true force_source conda_minor sourceFn
        cache conda_env extend_env
      = ⟨.ok (dinsert conda_env "PATH"
            (joinWith ":"
              (renderPath (b ++ ["wrappers", "conda"])
                :: renderPath b :: splitOnSep p ':'))),
          withDefaults extend_env, cache, 0⟩ := by
  have hw : dget? (wrappers_dir_of
        (venvs_bin_dir_of fs home venv_paths conda_minor)) t
      = some (b ++ ["wrappers", "conda"]) := by
    rw [dget?_wrappers, hb]; rfl
  have hpv : (dget? (withDefaults extend_env) "PY_VERSION").getD "py3" = t :=
    hver
  unfold venvResolve
  simp only [hpv, hw, hb, hpath, Option.isSome_some, Bool.and_true,
    Bool.true_and, if_true, reduceIte]

/--
Witness for C3: a concrete filesystem with the single discovered tag `py3`
and a base environment whose `PATH` is `/x`.
-/
theorem c3_wrapped_witness :
    venvResolve [["", "e", "py3", "bin"]] [] [["", "e"]] true false 4
        (fun _ _ => []) [] [("PATH", "/x")] []
      = ⟨.ok (dinsert [("PATH", "/x")] "PATH"
            (joinWith ":"
              (renderPath (["", "e", "py3", "bin"] ++ ["wrappers", "conda"])
                :: renderPath ["", "e", "py3", "bin"]
                :: splitOnSep "/x" ':'))),
          withDefaults [], [], 0⟩ :=
  c3_wrapped_prepends_path_no_subprocess [["", "e", "py3", "bin"]] []
    [["", "e"]] false 4 (fun _ _ => []) [] [("PATH", "/x")] [] "py3"
    ["", "e", "py3", "bin"] "/x" rfl rfl rfl

/- Lookup after a dict insert. -/
theorem dget?_dinsert {α : Type} (d : PDict α) (k k' : String) (v : α) :
    dget? (dinsert d k v) k' = if k = k' then some v else dget? d k' := by
  induction d with
  | nil => simp [dinsert, dget?]
  | cons kv rest ih =>
      obtain ⟨a, b⟩ := kv
      by_cases h1 : a = k <;> by_cases h2 : k = k' <;>
        by_cases h3 : a = k' <;> simp_all [dinsert, dget?]

/- A dict insert preserves key presence and makes the inserted key
present. -/
theorem isSome_dget?_dinsert {α : Type} (d : PDict α) (k k' : String) (v : α)
    (h : (dget? d k').isSome ∨ k = k') :
    (dget? (dinsert d k v) k').isSome := by
  rw [dget?_dinsert]
  rcases h with h | h
  · by_cases hk : k = k' <;> simp [hk, h]
  · simp [h]

/-
When the activation directory can be computed (conda == 3, or a nonempty
`venv_paths`), the sourcing loop raises nothing and spawns exactly one
sourcing subprocess per discovered tag.
-/
theorem sourceLoop_ok (conda_minor : Nat) (venv_paths : List (List String))
    (sourceFn : List String → String → Dict)
    (hvp : conda_minor = 3 ∨ venv_paths ≠ []) :
    ∀ (entries : List (String × List String)) (cache : PDict Dict),
    (sourceLoop conda_minor venv_paths sourceFn entries cache).2.1 = none
    ∧ (sourceLoop conda_minor venv_paths sourceFn entries cache).2.2
        = entries.length := by
  intro entries
  induction entries with
  | nil => intro cache; exact ⟨rfl, rfl⟩
  | cons e rest ih =>
      intro cache
      obtain ⟨version, bin_dir⟩ := e
      have finish : ∀ cache2 : PDict Dict,
          (sourceLoop conda_minor venv_paths sourceFn rest cache2).2.1 = none
          ∧ (sourceLoop conda_minor venv_paths sourceFn rest cache2).2.2 + 1
              = ((version, bin_dir) :: rest).length :=
        fun cache2 => ⟨(ih cache2).1, by rw [(ih cache2).2, List.length_cons]⟩
      rcases hvp with h3 | hne
      · subst h3
        simp only [sourceLoop, reduceIte]
        exact finish _
      · cases venv_paths with
        | nil => exact absurd rfl hne
        | cons p0 ps =>
            by_cases h3 : conda_minor = 3
            · subst h3
              simp only [sourceLoop, reduceIte]
              exact finish _
            · simp only [sourceLoop, h3, if_false, reduceIte]
              exact finish _

/-
After the sourcing loop, every discovered tag and every previously cached
tag has a cache entry.
-/
theorem sourceLoop_cache_isSome (conda_minor : Nat)
    (venv_paths : List (List String))
    (sourceFn : List String → String → Dict)
    (hvp : conda_minor = 3 ∨ venv_paths ≠ []) :
    ∀ (entries : List (String × List String)) (cache : PDict Dict)
      (k : String),
    ((dget? entries k).isSome ∨ (dget? cache k).isSome) →
    (dget? (sourceLoop conda_minor venv_paths sourceFn entries cache).1
      k).isSome := by
  intro entries
  induction entries with
  | nil =>
      intro cache k h
      rcases h with h | h
      · simp [dget?] at h
      · exact h
  | cons e rest ih =>
      intro cache k h
      obtain ⟨version, bin_dir⟩ := e
      have hmem : (dget? rest k).isSome = true ∨ version = k
          ∨ (dget? cache k).isSome = true := by
        rcases h with h | h
        · by_cases hk : version = k
          · exact Or.inr (Or.inl hk)
          · rw [dget?] at h
            simp only [hk, if_false] at h
            exact Or.inl h
        · exact Or.inr (Or.inr h)
      have finish : ∀ src : Dict,
          (dget? (sourceLoop conda_minor venv_paths sourceFn rest
            (dinsert cache version src)).1 k).isSome := by
        intro src
        apply ih
        rcases hmem with h | h | h
        · exact Or.inl h
        · exact Or.inr (isSome_dget?_dinsert _ _ _ _ (Or.inr h))
        · exact Or.inr (isSome_dget?_dinsert _ _ _ _ (Or.inl h))
      rcases hvp with h3 | hne
      · subst h3
        simp only [sourceLoop, reduceIte]
        exact finish _
      · cases venv_paths with
        | nil => exact absurd rfl hne
        | cons p0 ps =>
            by_cases h3 : conda_minor = 3
            · subst h3
              simp only [sourceLoop, reduceIte]
              exact finish _
            · simp only [sourceLoop, h3, if_false, reduceIte]
              exact finish _

/- `venvFinish` passes the cache of the loop result through unchanged. -/
theorem venvFinish_cache (ext1 conda_env : Dict) (py_ver : String)
    (r : PDict Dict × Option PyErr × Nat) :
    (venvFinish ext1 conda_env py_ver r).cache = r.1 := by
  obtain ⟨c, e?, n⟩ := r
  unfold venvFinish
  rcases e? with _ | e
  · dsimp only
    split
    · rfl
    · split <;> rfl
  · rfl

/- `venvFinish` passes the spawn count of the loop result through
unchanged. -/
theorem venvFinish_spawns (ext1 conda_env : Dict) (py_ver : String)
    (r : PDict Dict × Option PyErr × Nat) :
    (venvFinish ext1 conda_env py_ver r).spawns = r.2.2 := by
  obtain ⟨c, e?, n⟩ := r
  unfold venvFinish
  rcases e? with _ | e
  · dsimp only
    split
    · rfl
    · split <;> rfl
  · rfl

/- With `use_wrapped` false and a tag that is neither root nor base,
resolution takes the sourcing branch. -/
theorem venvResolve_not_wrapped (fs : List (List String))
    (home : List String) (venv_paths : List (List String))
    (force_source : Bool) (conda_minor : Nat)
    (sourceFn : List String → String → Dict) (cache : PDict Dict)
    (conda_env extend_env : Dict)
    (hroot : pyVerOf extend_env ≠ "root")
    (hbase : pyVerOf extend_env ≠ "base") :
    venvResolve fs home venv_paths false force_source conda_minor sourceFn
        cache conda_env extend_env
      = venvFinish (withDefaults extend_env) conda_env (pyVerOf extend_env)
          (if (dget? cache (pyVerOf extend_env)).isNone || force_source then
            sourceLoop conda_minor venv_paths sourceFn
              (venvs_bin_dir_of fs home venv_paths conda_minor) cache
          else (cache, none, 0)) := by
  have hpv : (dget? (withDefaults extend_env) "PY_VERSION").getD "py3"
      = pyVerOf extend_env := rfl
  unfold venvResolve
  simp [hpv, hroot, hbase]

/- With the tag already cached and `force_source` unset, resolution spawns
nothing and leaves the cache untouched. -/
theorem venvResolve_cached_spawns_zero (fs : List (List String))
    (home : List String) (venv_paths : List (List String))
    (conda_minor : Nat) (sourceFn : List String → String → Dict)
    (cache : PDict Dict) (conda_env extend_env : Dict)
    (hroot : pyVerOf extend_env ≠ "root")
    (hbase : pyVerOf extend_env ≠ "base")
    (hc : (dget? cache (pyVerOf extend_env)).isSome) :
    (venvResolve fs home venv_paths false false conda_minor sourceFn cache
      conda_env extend_env).spawns = 0
    ∧ (venvResolve fs home venv_paths false false conda_minor sourceFn cache
      conda_env extend_env).cache = cache := by
  rw [venvResolve_not_wrapped fs home venv_paths false conda_minor sourceFn
    cache conda_env extend_env hroot hbase]
  have hn : (dget? cache (pyVerOf extend_env)).isNone = false := by
    rcases hh : dget? cache (pyVerOf extend_env) with _ | d
    · rw [hh] at hc; simp at hc
    · rfl
  rw [hn]
  simp only [Bool.or_false, reduceIte]
  exact ⟨by rw [venvFinish_spawns]; rfl, by rw [venvFinish_cache]; rfl⟩

/- With the tag absent from the cache, resolution spawns one sourcing
subprocess per discovered tag and afterwards every discovered tag (and
every previously cached one) is cached. -/
theorem venvResolve_absent_sources_all (fs : List (List String))
    (home : List String) (venv_paths : List (List String))
    (conda_minor : Nat) (sourceFn : List String → String → Dict)
    (cache : PDict Dict) (conda_env extend_env : Dict)
    (hroot : pyVerOf extend_env ≠ "root")
    (hbase : pyVerOf extend_env ≠ "base")
    (hc : dget? cache (pyVerOf extend_env) = none) :
    (venvResolve fs home venv_paths false false conda_minor sourceFn cache
      conda_env extend_env).spawns
      = (venvs_bin_dir_of fs home venv_paths conda_minor).length
    ∧ ∀ k, ((dget? (venvs_bin_dir_of fs home venv_paths conda_minor)
          k).isSome ∨ (dget? cache k).isSome) →
        (dget? (venvResolve fs home venv_paths false false conda_minor
          sourceFn cache conda_env extend_env).cache k).isSome := by
  rw [venvResolve_not_wrapped fs home venv_paths false conda_minor sourceFn
    cache conda_env extend_env hroot hbase, hc]
  simp only [Option.isNone_none, Bool.true_or, reduceIte]
  cases venv_paths with
  | nil =>
      constructor
      · rw [venvFinish_spawns]; rfl
      · intro k hk
        rw [venvFinish_cache]
        rcases hk with hk | hk
        · have hT : venvs_bin_dir_of fs home ([] : List (List String))
              conda_minor = [] := rfl
          rw [hT] at hk
          simp [dget?] at hk
        · exact hk
  | cons p0 ps =>
      have hvp : conda_minor = 3 ∨ (p0 :: ps) ≠ [] := Or.inr (by simp)
      constructor
      · rw [venvFinish_spawns,
          (sourceLoop_ok conda_minor (p0 :: ps) sourceFn hvp _ cache).2]
      · intro k hk
        rw [venvFinish_cache]
        exact sourceLoop_cache_isSome conda_minor (p0 :: ps) sourceFn hvp _
          cache k hk

/--
C2 (amended): resolving a tag that is not root/base with `force_source`
false and the wrapped strategy off: (1) if the tag already has a cache
entry, no sourcing subprocess is invoked; (2) if the entry is absent, the
resolution invokes one sourcing subprocess per discovered tag — not one
batched invocation for all of them — during that single resolution, and
(3) populates the cache for all discovered tags at once, so (4) a second
resolution of the same (discovered) tag with `force_source` false triggers
zero additional sourcing invocations.
-/
theorem c2_sourcing_once_then_cached (fs : List (List String))
    (home : List String) (venv_paths : List (List String))
    (conda_minor : Nat) (sourceFn : List String → String → Dict)
    (cache : PDict Dict) (conda_env extend_env : Dict)
    (hroot : pyVerOf extend_env ≠ "root")
    (hbase : pyVerOf extend_env ≠ "base") :
    ((dget? cache (pyVerOf extend_env)).isSome →
      (venvResolve fs home venv_paths false false conda_minor sourceFn cache
        conda_env extend_env).spawns = 0)
    ∧ (dget? cache (pyVerOf extend_env) = none →
      (venvResolve fs home venv_paths false false conda_minor sourceFn cache
        conda_env extend_env).spawns
        = (venvs_bin_dir_of fs home venv_paths conda_minor).length)
    ∧ (dget? cache (pyVerOf extend_env) = none →
      ∀ k, (dget? (venvs_bin_dir_of fs home venv_paths conda_minor)
          k).isSome →
        (dget? (venvResolve fs home venv_paths false false conda_minor
          sourceFn cache conda_env extend_env).cache k).isSome)
    ∧ (dget? cache (pyVerOf extend_env) = none →
      (dget? (venvs_bin_dir_of fs home venv_paths conda_minor)
        (pyVerOf extend_env)).isSome →
      (venvResolve fs home venv_paths false false conda_minor sourceFn
        (venvResolve fs home venv_paths false false conda_minor sourceFn
          cache conda_env extend_env).cache
        conda_env extend_env).spawns = 0) := by
  refine ⟨fun hc => (venvResolve_cached_spawns_zero fs home venv_paths
      conda_minor sourceFn cache conda_env extend_env hroot hbase hc).1,
    fun hc => (venvResolve_absent_sources_all fs home venv_paths conda_minor
      sourceFn cache conda_env extend_env hroot hbase hc).1,
    fun hc k hk => (venvResolve_absent_sources_all fs home venv_paths
      conda_minor sourceFn cache conda_env extend_env hroot hbase hc).2 k
      (Or.inl hk),
    fun hc ht => ?_⟩
  exact (venvResolve_cached_spawns_zero fs home venv_paths conda_minor
    sourceFn _ conda_env extend_env hroot hbase
    ((venvResolve_absent_sources_all fs home venv_paths conda_minor sourceFn
      cache conda_env extend_env hroot hbase hc).2 _ (Or.inl ht))).1

/--
Counterexample for C2 as stated: with two discovered tags (`py2` and `py3`
under `/e`), a resolution of `py3` on an empty cache triggers two sourcing
subprocess invocations (one per discovered tag), not exactly one batched
invocation.
-/
theorem c2_counterexample_two_invocations :
    (venvResolve [["", "e", "py2", "bin"], ["", "e", "py3", "bin"]] []
      [["", "e"]] false false 4 (fun _ _ => []) [] [("PATH", "/x")]
      []).spawns = 2
    ∧ (venvResolve [["", "e", "py2", "bin"], ["", "e", "py3", "bin"]] []
      [["", "e"]] false false 4 (fun _ _ => []) [] [("PATH", "/x")]
      []).spawns ≠ 1 := by
  exact ⟨rfl, by decide⟩

/--
Witness for C2: the spec's scenario — one venv root `~/envs` containing the
single tag `py3` with an activation script, an empty cache — spawns
exactly one sourcing invocation (the number of discovered tags), and the
second resolution over the resulting cache spawns zero.
-/
theorem c2_sourcing_witness :
    (venvResolve
        [["", "home", "u", "envs", "py3", "bin"],
         ["", "home", "u", "envs", "py3", "bin", "activate"]]
        ["", "home", "u"] [["~", "envs"]] false false 4 (fun _ _ => []) []
        [("PATH", "/x")] []).spawns
      = (venvs_bin_dir_of
          [["", "home", "u", "envs", "py3", "bin"],
           ["", "home", "u", "envs", "py3", "bin", "activate"]]
          ["", "home", "u"] [["~", "envs"]] 4).length
    ∧ (venvResolve
        [["", "home", "u", "envs", "py3", "bin"],
         ["", "home", "u", "envs", "py3", "bin", "activate"]]
        ["", "home", "u"] [["~", "envs"]] false false 4 (fun _ _ => [])
        (venvResolve
          [["", "home", "u", "envs", "py3", "bin"],
           ["", "home", "u", "envs", "py3", "bin", "activate"]]
          ["", "home", "u"] [["~", "envs"]] false false 4 (fun _ _ => []) []
          [("PATH", "/x")] []).cache
        [("PATH", "/x")] []).spawns = 0 :=
  ⟨(c2_sourcing_once_then_cached
      [["", "home", "u", "envs", "py3", "bin"],
       ["", "home", "u", "envs", "py3", "bin", "activate"]]
      ["", "home", "u"] [["~", "envs"]] 4 (fun _ _ => []) []
      [("PATH", "/x")] [] (by decide) (by decide)).2.1 rfl,
    (c2_sourcing_once_then_cached
      [["", "home", "u", "envs", "py3", "bin"],
       ["", "home", "u", "envs", "py3", "bin", "activate"]]
      ["", "home", "u"] [["~", "envs"]] 4 (fun _ _ => []) []
      [("PATH", "/x")] [] (by decide) (by decide)).2.2.2 rfl (by decide)⟩

/- A heap of Python dict objects: references are allocation indices below
`next`. -/
structure Store : Type where
  next : Nat
  mem : Nat → Dict

/- Allocate a fresh dict object. -/
def Store.alloc (st : Store) (d : Dict) : Store × Nat :=
  (⟨st.next + 1, fun n => if n = st.next then d else st.mem n⟩, st.next)

/- Mutate the dict object behind an existing reference in place. -/
def Store.set (st : Store) (r : Nat) (d : Dict) : Store :=
  ⟨st.next, fun n => if n = r then d else st.mem n⟩

/-
`SubprocessRepl.env` at the heap level, mutations made explicit: both
`updated_env.update(...)` calls (lines 199 and 201) mutate the dict behind
`r` in place; `bytes_env` (line 203) is a fresh dict, whose reference is
returned.
-/
def envStoreGo (enc : String → SubprocessRepl.EncResult)
    (default_extend_env extend_env : Dict) (st : Store) (r : Nat) :
    Store × Except PyErr Nat :=
  match SubprocessRepl.envPhase (st.mem r) default_extend_env with
  | none => (st, .error .keyError)
  | some u1 =>
      let st1 := st.set r u1
      match SubprocessRepl.envPhase u1 extend_env with
      | none => (st1, .error .keyError)
      | some u2 =>
          let st2 := st1.set r u2
          match SubprocessRepl.bytesEnvOf enc u2 with
          | .error e => (st2, .error e)
          | .ok b =>
              let ar := st2.alloc b
              (ar.1, .ok ar.2)

/-
Line 196 at the heap level: `env if env else self.getenv(settings)` — a
supplied non-empty dict is used (and therefore mutated) as is; an absent or
empty (falsy) dict is replaced by a fresh snapshot of the inherited
environment (`os.environ.copy()` or the parsed login-shell dump), leaving
the caller's object untouched.
-/
def envStoreBuild (enc : String → SubprocessRepl.EncResult)
    (inherited default_extend_env extend_env : Dict) (st0 : Store)
    (base? : Option Nat) : Store × Except PyErr Nat :=
  match base? with
  | some r =>
      if (st0.mem r).isEmpty then
        let ar := st0.alloc inherited
        envStoreGo enc default_extend_env extend_env ar.1 ar.2
      else envStoreGo enc default_extend_env extend_env st0 r
  | none =>
      let ar := st0.alloc inherited
      envStoreGo enc default_extend_env extend_env ar.1 ar.2

/-
`SubprocessReplVenv.__init__` (lines 349-401, stopping before the
`super().__init__` call at line 405) at the heap level: the caller's
`extend_env` object behind `re` receives the `PY_VERSION` /
`PYTHONIOENCODING` defaults in place (lines 369-373); the base environment
object behind `base?` (or a fresh snapshot when absent or empty, line 366)
receives the resolved delta in place (line 382 or line 400).  Returns the
heap, the reference to the mutated base environment (or the escaped
error), the new cache and the spawn count.
-/
def venvInitStore (fs : List (List String)) (home : List String)
    (venv_paths : List (List String)) (use_wrapped force_source : Bool)
    (conda_minor : Nat) (sourceFn : List String → String → Dict)
    (inherited : Dict) (cache : PDict Dict) (st0 : Store)
    (base? : Option Nat) (re : Nat) :
    Store × Except PyErr Nat × PDict Dict × Nat :=
  let pr :=
    match base? with
    | some rb => if (st0.mem rb).isEmpty then st0.alloc inherited
        else (st0, rb)
    | none => st0.alloc inherited
  let st := pr.1
  let rb := pr.2
  let R := venvResolve fs home venv_paths use_wrapped force_source
    conda_minor sourceFn cache (st.mem rb) (st.mem re)
  let st2 := st.set re R.extend_env
  match R.res with
  | .error e => (st2, .error e, R.cache, R.spawns)
  | .ok env2 => (st2.set rb env2, .ok rb, R.cache, R.spawns)

/- `venvFinish` passes the defaulted `extend_env` through unchanged. -/
theorem venvFinish_extend_env (ext1 conda_env : Dict) (py_ver : String)
    (r : PDict Dict × Option PyErr × Nat) :
    (venvFinish ext1 conda_env py_ver r).extend_env = ext1 := by
  obtain ⟨c, e?, n⟩ := r
  unfold venvFinish
  rcases e? with _ | e
  · dsimp only
    split
    · rfl
    · split <;> rfl
  · rfl

/- Whatever branch resolution takes, the `extend_env` it leaves behind is
the caller's dict with the two defaults inserted. -/
theorem venvResolve_extend_env (fs : List (List String))
    (home : List String) (venv_paths : List (List String))
    (use_wrapped force_source : Bool) (conda_minor : Nat)
    (sourceFn : List String → String → Dict) (cache : PDict Dict)
    (conda_env extend_env : Dict) :
    (venvResolve fs home venv_paths use_wrapped force_source conda_minor
      sourceFn cache conda_env extend_env).extend_env
      = withDefaults extend_env := by
  unfold venvResolve
  dsimp only
  split
  · split <;> rfl
  · split
    · rfl
    · rw [venvFinish_extend_env]

/--
C10: the build mutates the caller's dict objects in place.  Part A: with a
supplied non-empty base dict behind reference `rA`, `env()` mutates that
very object to the interpolated environment `u2` (the returned byte dict
is the only fresh object, allocated at `stA.next`), and every other heap
object is untouched.  Part B: with no base supplied, a fresh snapshot is
allocated and every pre-existing heap object is untouched.  Part C:
`SubprocessReplVenv.__init__` writes the `PY_VERSION` / `PYTHONIOENCODING`
defaults into the supplied `extend_env` object behind `re` and the
resolved environment into the supplied base object behind `rb`, leaving
the rest of the heap untouched.
-/
theorem c10_in_place_mutation
    (enc : String → SubprocessRepl.EncResult) (inh dflt ext : Dict)
    (stA : Store) (rA : Nat) (u1 u2 bA : Dict) (v1 v2 bB : Dict)
    (fs : List (List String)) (home : List String)
    (vp : List (List String)) (uw fsrc : Bool) (cm : Nat)
    (srcFn : List String → String → Dict) (inh2 : Dict)
    (cache : PDict Dict) (stC : Store) (rb re : Nat) (env2 : Dict)
    (hAne : (stA.mem rA).isEmpty = false)
    (hA1 : SubprocessRepl.envPhase (stA.mem rA) dflt = some u1)
    (hA2 : SubprocessRepl.envPhase u1 ext = some u2)
    (hA3 : SubprocessRepl.bytesEnvOf enc u2 = .ok bA)
    (hAr : rA < stA.next)
    (hB1 : SubprocessRepl.envPhase inh dflt = some v1)
    (hB2 : SubprocessRepl.envPhase v1 ext = some v2)
    (hB3 : SubprocessRepl.bytesEnvOf enc v2 = .ok bB)
    (hCne : (stC.mem rb).isEmpty = false)
    (hCr : rb ≠ re)
    (hCres : (venvResolve fs home vp uw fsrc cm srcFn cache (stC.mem rb)
      (stC.mem re)).res = .ok env2) :
    ((envStoreBuild enc inh dflt ext stA (some rA)).2 = .ok stA.next
      ∧ (envStoreBuild enc inh dflt ext stA (some rA)).1.mem rA = u2
      ∧ (envStoreBuild enc inh dflt ext stA (some rA)).1.mem stA.next = bA
      ∧ ∀ q, q ≠ rA → q ≠ stA.next →
          (envStoreBuild enc inh dflt ext stA (some rA)).1.mem q = stA.mem q)
    ∧ ((envStoreBuild enc inh dflt ext stA none).2 = .ok (stA.next + 1)
      ∧ ∀ q, q < stA.next →
          (envStoreBuild enc inh dflt ext stA none).1.mem q = stA.mem q)
    ∧ ((venvInitStore fs home vp uw fsrc cm srcFn inh2 cache stC (some rb)
          re).2.1 = .ok rb
      ∧ (venvInitStore fs home vp uw fsrc cm srcFn inh2 cache stC (some rb)
          re).1.mem re = withDefaults (stC.mem re)
      ∧ (venvInitStore fs home vp uw fsrc cm srcFn inh2 cache stC (some rb)
          re).1.mem rb = env2
      ∧ ∀ q, q ≠ rb → q ≠ re →
          (venvInitStore fs home vp uw fsrc cm srcFn inh2 cache stC
            (some rb) re).1.mem q = stC.mem q) := by
  have hAr' : rA ≠ stA.next := Nat.ne_of_lt hAr
  have hCr' : re ≠ rb := Ne.symm hCr
  refine ⟨⟨?_, ?_, ?_, ?_⟩, ⟨?_, ?_⟩, ⟨?_, ?_, ?_, ?_⟩⟩
  · simp [envStoreBuild, hAne, envStoreGo, hA1, hA2, hA3, Store.alloc,
      Store.set]
  · simp [envStoreBuild, hAne, envStoreGo, hA1, hA2, hA3, Store.alloc,
      Store.set, hAr']
  · simp [envStoreBuild, hAne, envStoreGo, hA1, hA2, hA3, Store.alloc,
      Store.set]
  · intro q hq1 hq2
    simp [envStoreBuild, hAne, envStoreGo, hA1, hA2, hA3, Store.alloc,
      Store.set, hq1, hq2]
  · simp [envStoreBuild, envStoreGo, Store.alloc, Store.set, hB1, hB2, hB3]
  · intro q hq
    have h1 : q ≠ stA.next := Nat.ne_of_lt hq
    have h2 : q ≠ stA.next + 1 := by omega
    simp [envStoreBuild, envStoreGo, Store.alloc, Store.set, hB1, hB2, hB3,
      h1, h2]
  · simp [venvInitStore, hCne, hCres, Store.set]
  · simp [venvInitStore, hCne, hCres, Store.set, hCr',
      venvResolve_extend_env]
  · simp [venvInitStore, hCne, hCres, Store.set]
  · intro q hq1 hq2
    simp [venvInitStore, hCne, hCres, Store.set, hq1, hq2]

/- A concrete two-object heap: reference 0 holds a base environment,
reference 1 holds an `extend_env`. -/
def storeW : Store :=
  ⟨2, fun n => if n = 0 then [("NAME", "sam")]
      else if n = 1 then [("A", "1")] else []⟩

/--
Witness for C10: on the concrete heap, `env()` rewrites the supplied base
object in place with the interpolated entry, and the venv constructor
rewrites the supplied `extend_env` object with the defaults and the base
object with the resolved environment.
-/
theorem c10_in_place_witness :
    (envStoreBuild .ok [("NAME", "sam")] [] [("G", "hi {NAME}")] storeW
      (some 0)).1.mem 0 = [("NAME", "sam"), ("G", "hi sam")]
    ∧ (venvInitStore [["", "e", "py3", "bin"]] [] [["", "e"]] false false 4
        (fun _ _ => []) [] [] storeW (some 0) 1).1.mem 1
      = withDefaults (storeW.mem 1)
    ∧ (venvInitStore [["", "e", "py3", "bin"]] [] [["", "e"]] false false 4
        (fun _ _ => []) [] [] storeW (some 0) 1).1.mem 0
      = [("NAME", "sam")] := by
  have h := c10_in_place_mutation .ok [("NAME", "sam")] []
    [("G", "hi {NAME}")] storeW 0 [("NAME", "sam")]
    [("NAME", "sam"), ("G", "hi sam")] [("NAME", "sam"), ("G", "hi sam")]
    [("NAME", "sam")] [("NAME", "sam"), ("G", "hi sam")]
    [("NAME", "sam"), ("G", "hi sam")]
    [["", "e", "py3", "bin"]] [] [["", "e"]] false false 4 (fun _ _ => [])
    [] [] storeW 0 1 [("NAME", "sam")]
    rfl rfl rfl rfl (by decide) rfl rfl rfl rfl (by decide) rfl
  exact ⟨h.1.2.1, h.2.2.2.1, h.2.2.2.2.1⟩

/--
Counterexample for C10 as stated: when the caller supplies an *empty* base
dict (behind reference 0 of a one-object heap), the build does not mutate
it — `env if env else self.getenv(settings)` treats the empty dict as
falsy, so a fresh snapshot is created even though a base was supplied: the
supplied object still holds `[]` afterwards and the returned byte dict
lives at the fresh reference 2.
-/
theorem c10_counterexample_empty_base :
    (envStoreBuild .ok [("NAME", "sam")] [] [("G", "hi {NAME}")]
      ⟨1, fun _ => []⟩ (some 0)).1.mem 0 = []
    ∧ (envStoreBuild .ok [("NAME", "sam")] [] [("G", "hi {NAME}")]
      ⟨1, fun _ => []⟩ (some 0)).2 = .ok 2 := by
  exact ⟨rfl, rfl⟩
